import Mathlib

/-!
# Image-loader: authorization and cross-store orchestration

A shallow embedding of the Go packages `internal/model`, `internal/repository`
(user.go), `internal/service`, `internal/middleware` and `internal/telegram`.

* Go `error` values are modelled by their message (`Error := String`); a Go
  function returning `(T, error)` becomes `Except Error T`, except
  `response.ParseResponse`, whose bytes `writeErr` uses even next to an error.
* Stateful collaborators are modelled by explicit state passing. The
  controller is written against the three interfaces of `service.go`; every
  interface call is recorded in a ghost trace so that "is never called" can be
  stated.
* Go `int`/`int64` are modelled by `Int` (`int` is taken to be 64 bits wide, so
  the conversions between the two are the identity); the only place where a
  width matters is `strconv.ParseInt(_, 10, 64)`, whose range checks are kept.
-/

namespace ImageLoader

/-- Go error, identified with its message. -/
abbrev Error := String

/-- Content of an `io.Reader`, as the bytes it yields. -/
abbrev Reader := List Nat

/-! ## internal/model -/

/-- Go struct `model.User`. -/
structure User where
  ID : Int
  Name : String
  Login : String
  Password : String
  Description : String
  ImageUrls : List String
  deriving DecidableEq, Repr

/-- Go struct `model.Image`. -/
structure Image where
  ID : Int
  UserID : Int
  Name : String
  Extension : String
  Data : Reader
  deriving DecidableEq, Repr

/-! ## Go values of interface type and the request context -/

/-- A Go value of type `any`, by dynamic type. -/
inductive GoAny where
  | nil
  | int (v : Int)
  | int64 (v : Int)
  | string (s : String)
  deriving DecidableEq, Repr

/-- The part of a `context.Context` the program reads: the value stored under
`constants.IdCtxKey` (`nil` when the key was never set). -/
structure Context where
  idCtxKey : GoAny
  deriving DecidableEq, Repr

/-- Go `ctx.Value(constants.IdCtxKey)`. -/
def Context.Value (ctx : Context) : GoAny := ctx.idCtxKey

/-- Go `context.WithValue(ctx, constants.IdCtxKey, v)`. -/
def Context.WithValue (_ctx : Context) (v : GoAny) : Context := { idCtxKey := v }

/-- Go `context.Background()`. -/
def Context.Background : Context := { idCtxKey := GoAny.nil }

/-! ## Go standard library: `strconv` (base 10, 64 bits) and `strings.Split` -/

/-- The two sentinel errors a `*strconv.NumError` can wrap. -/
inductive strconv.NumErrKind where
  | ErrSyntax
  | ErrRange
  deriving DecidableEq, Repr

/-- Largest `uint64`. -/
def strconv.maxUint64 : Nat := 2 ^ 64 - 1

/-- Digit loop of `strconv.ParseUint(s, 10, 64)`: `n` is the value read so far.
A byte outside `'0'..'9'` is a syntax error (a letter has digit value at least
10, the base; an underscore is only legal with base 0); the two range checks
are the ones of the library, the second one on the wrapped `uint64` sum. -/
def strconv.parseUintLoop : List Char → Nat → Except strconv.NumErrKind Nat
  | [], n => Except.ok n
  | c :: rest, n =>
    if '0' ≤ c ∧ c ≤ '9' then
      let d := c.toNat - '0'.toNat
      if n ≥ strconv.maxUint64 / 10 + 1 then
        Except.error strconv.NumErrKind.ErrRange
      else
        let n10 := n * 10
        let n1 := (n10 + d) % 2 ^ 64
        if n1 < n10 ∨ n1 > strconv.maxUint64 then
          Except.error strconv.NumErrKind.ErrRange
        else
          strconv.parseUintLoop rest n1
    else
      Except.error strconv.NumErrKind.ErrSyntax

/-- Go `strconv.ParseUint(s, 10, 64)`. -/
def strconv.ParseUint (s : List Char) : Except strconv.NumErrKind Nat :=
  match s with
  | [] => Except.error strconv.NumErrKind.ErrSyntax
  | c :: rest => strconv.parseUintLoop (c :: rest) 0

/-- Message of the `*NumError` of `ParseInt` for a syntax error. -/
def strconv.syntaxError (s : String) : Error :=
  "strconv.ParseInt: parsing " ++ s.quote ++ ": invalid syntax"

/-- Message of the `*NumError` of `ParseInt` for a range error. -/
def strconv.rangeError (s : String) : Error :=
  "strconv.ParseInt: parsing " ++ s.quote ++ ": value out of range"

/-- Go `strconv.ParseInt(s, 10, 64)`. -/
def strconv.ParseInt (s : String) : Except Error Int :=
  match s.data with
  | [] => Except.error (strconv.syntaxError s)
  | c :: rest =>
    let neg : Bool := c = '-'
    let body := if c = '+' ∨ c = '-' then rest else c :: rest
    match strconv.ParseUint body with
    | Except.error strconv.NumErrKind.ErrSyntax => Except.error (strconv.syntaxError s)
    | Except.error strconv.NumErrKind.ErrRange => Except.error (strconv.rangeError s)
    | Except.ok un =>
      let cutoff : Nat := 2 ^ 63
      if neg = false ∧ un ≥ cutoff then
        Except.error (strconv.rangeError s)
      else if neg = true ∧ un > cutoff then
        Except.error (strconv.rangeError s)
      else
        Except.ok (if neg then -(un : Int) else (un : Int))

/-- The decimal digit `d` as a byte. -/
def strconv.digitChar (d : Nat) : Char := Char.ofNat ('0'.toNat + d)

/-- Go `strconv.formatBits` for base 10: the digits of `u` are put in front of
`acc`, least significant first; `fuel` bounds the number of digits (the
library's buffer holds 65 bytes). -/
def strconv.formatBits : Nat → Nat → List Char → List Char
  | 0, _, acc => acc
  | fuel + 1, u, acc =>
    if u < 10 then
      strconv.digitChar u :: acc
    else
      strconv.formatBits fuel (u / 10) (strconv.digitChar (u % 10) :: acc)

/-- Go `strconv.Itoa` (`FormatInt(int64(i), 10)`). -/
def strconv.Itoa (i : Int) : String :=
  if i < 0 then
    String.mk ('-' :: strconv.formatBits 65 i.natAbs [])
  else
    String.mk (strconv.formatBits 65 i.natAbs [])

/-- Go `strings.Split(s, " ")` on the bytes of `s`: the pieces between the
spaces, one more than there are spaces. -/
def strings.Split : List Char → List (List Char)
  | [] => [[]]
  | c :: rest =>
    match strings.Split rest with
    | [] => [[]]
    | piece :: pieces => if c = ' ' then [] :: piece :: pieces else (c :: piece) :: pieces

/-! ## github.com/golang-jwt/jwt/v5, as used by the program

The compact serialisation and the MAC are not modelled: a token string is
either text that does not decode, or its decoded header algorithm, claim set
and signature; the MAC is a function `hmac alg key claims`, and a signature
verifies when it equals the MAC of the claims under the key. Times are
nanoseconds since the epoch. -/

/-- Go `time.Time`, in nanoseconds. -/
abbrev Time := Nat

/-- Go `time.Second`. -/
def Second : Nat := 1000000000

/-- Go `time.Hour`. -/
def Hour : Nat := 3600 * Second

/-- Go `jwt.NewNumericDate`: the time truncated to `jwt.TimePrecision`, one second. -/
def jwt.NewNumericDate (t : Time) : Time := t / Second * Second

/-- Go struct `jwt.RegisteredClaims`. -/
structure jwt.RegisteredClaims where
  Issuer : String
  Subject : String
  Audience : List String
  ExpiresAt : Option Time
  NotBefore : Option Time
  IssuedAt : Option Time
  ID : String
  deriving DecidableEq, Repr

/-- A decoded JSON claim read as a string: a JSON string or another JSON value. -/
inductive jwt.ClaimValue where
  | str (s : String)
  | other
  deriving DecidableEq, Repr

/-- Go `jwt.MapClaims`, the claim set `jwt.Parse` decodes into; `none` is an
absent key. -/
structure jwt.MapClaims where
  iss : Option jwt.ClaimValue
  sub : Option jwt.ClaimValue
  aud : List String
  exp : Option Time
  nbf : Option Time
  iat : Option Time
  jti : Option jwt.ClaimValue
  deriving DecidableEq, Repr

/-- A signature, as bytes. -/
abbrev jwt.Signature := List Nat

/-- The MAC family: algorithm name, key, signed claims. -/
abbrev jwt.HMAC := String → String → jwt.MapClaims → jwt.Signature

/-- A token string as it travels in the `Authorization` header. -/
inductive jwt.TokenString where
  | malformed (raw : String)
  | compact (alg : String) (claims : jwt.MapClaims) (signature : jwt.Signature)
  deriving DecidableEq, Repr

/-- JSON encoding of a string field tagged `omitempty`. -/
def jwt.omitempty (s : String) : Option jwt.ClaimValue :=
  if s = "" then none else some (jwt.ClaimValue.str s)

/-- The claim set a `RegisteredClaims` value decodes back to. -/
def jwt.RegisteredClaims.toMapClaims (c : jwt.RegisteredClaims) : jwt.MapClaims :=
  { iss := jwt.omitempty c.Issuer
    sub := jwt.omitempty c.Subject
    aud := c.Audience
    exp := c.ExpiresAt
    nbf := c.NotBefore
    iat := c.IssuedAt
    jti := jwt.omitempty c.ID }

/-- Go `jwt.NewWithClaims(jwt.SigningMethodHS256, claims).SignedString(key)`. -/
def jwt.SignedString (hmac : jwt.HMAC) (key : String) (claims : jwt.RegisteredClaims) :
    Except Error jwt.TokenString :=
  Except.ok (jwt.TokenString.compact "HS256" claims.toMapClaims
    (hmac "HS256" key claims.toMapClaims))

/-- Go `jwt.Parse(tokenStr, keyFunc)` with a key function that always returns
the byte key `keyword`, at time `now`: decode, verify the signature (only the
HMAC methods accept a byte key), then validate `exp` and `nbf`. -/
def jwt.Parse (hmac : jwt.HMAC) (keyword : String) (now : Time) (tokenStr : jwt.TokenString) :
    Except Error jwt.MapClaims :=
  match tokenStr with
  | jwt.TokenString.malformed _ => Except.error "token is malformed"
  | jwt.TokenString.compact alg claims signature =>
    if alg ∉ ["HS256", "HS384", "HS512"] then
      Except.error "token is unverifiable: key is of invalid type"
    else if signature ≠ hmac alg keyword claims then
      Except.error "token signature is invalid: signature is invalid"
    else if claims.exp.any (fun exp => ¬ (now < exp)) then
      Except.error "token has invalid claims: token is expired"
    else if claims.nbf.any (fun nbf => now < nbf) then
      Except.error "token has invalid claims: token is not valid yet"
    else
      Except.ok claims

/-- Go `(jwt.MapClaims).GetIssuer`. -/
def jwt.MapClaims.GetIssuer (m : jwt.MapClaims) : Except Error String :=
  match m.iss with
  | none => Except.ok ""
  | some (jwt.ClaimValue.str iss) => Except.ok iss
  | some jwt.ClaimValue.other => Except.error "invalid type for claim: iss is invalid"

/-! ## internal/service: interfaces and ghost trace -/

/-- One call made by the controller through one of its three interfaces. -/
inductive Call where
  | AddUser (user : User)
  | GetUser (id : Int)
  | UpdateUser (user : User)
  | DeleteUser (id : Int)
  | CheckAuth (login password : String)
  | CheckTgAuth (tgID : Int)
  | AuthorizeTG (userID : Int) (telegramID : Int)
  | AddImage (image : Image)
  | GetImages (userID : Int)
  | PutObject (image : Image)
  | GetUrls (images : List Image)
  | GetObjects (images : List Image)
  deriving DecidableEq, Repr

/-- Go interface `repository` over a store state `σ`. -/
structure repository (σ : Type) where
  AddUser : User → σ → Except Error Unit × σ
  GetUser : Int → σ → Except Error User × σ
  UpdateUser : User → σ → Except Error Unit × σ
  DeleteUser : Int → σ → Except Error Unit × σ
  CheckAuth : String → String → σ → Except Error User × σ
  CheckTgAuth : Int → σ → Except Error Int × σ
  AuthorizeTG : Int → Int → σ → Except Error Unit × σ

/-- Go interface `imageRepository`. -/
structure imageRepository (σ : Type) where
  AddImage : Image → σ → Except Error Unit × σ
  GetImages : Int → σ → Except Error (List Image) × σ

/-- Go interface `fileStorage`. -/
structure fileStorage (σ : Type) where
  PutObject : Image → σ → Except Error Unit × σ
  GetUrls : List Image → σ → Except Error (List String) × σ
  GetObjects : List Image → σ → Except Error (List Reader) × σ

/-- The field of `config.Config` the controller reads. -/
structure Config where
  JWTKeyword : String
  deriving DecidableEq, Repr

/-- Go struct `Controller`. -/
structure Controller (σ : Type) where
  repo : repository σ
  imageRepo : imageRepository σ
  cfg : Config
  minio : fileStorage σ

/-- State of the stores together with the ghost trace of interface calls. -/
structure World (σ : Type) where
  st : σ
  trace : List Call

/-- Perform one interface call: run it on the store state and record it. -/
def invoke {σ α : Type} (call : Call) (f : σ → Except Error α × σ) (w : World σ) :
    Except Error α × World σ :=
  ((f w.st).1, { st := (f w.st).2, trace := w.trace ++ [call] })

/-- Go `(*Controller).UpdateUser`. -/
def Controller.UpdateUser {σ : Type} (c : Controller σ) (ctx : Context) (user : User)
    (w : World σ) : Except Error Unit × World σ :=
  let id := ctx.Value
  if id ≠ GoAny.int user.ID then
    (Except.error "users do not match", w)
  else
    invoke (Call.UpdateUser user) (c.repo.UpdateUser user) w

/-- Go `(*Controller).GetUser`. -/
def Controller.GetUser {σ : Type} (c : Controller σ) (id : Int) (w : World σ) :
    Except Error User × World σ :=
  match invoke (Call.GetUser id) (c.repo.GetUser id) w with
  | (Except.error err, w1) => (Except.error err, w1)
  | (Except.ok user, w1) =>
    match invoke (Call.GetImages user.ID) (c.imageRepo.GetImages user.ID) w1 with
    | (Except.error err, w2) => (Except.error err, w2)
    | (Except.ok images, w2) =>
      match invoke (Call.GetUrls images) (c.minio.GetUrls images) w2 with
      | (Except.error err, w3) => (Except.error err, w3)
      | (Except.ok urls, w3) => (Except.ok { user with ImageUrls := urls }, w3)

/-- Go `(*Controller).Authorize`, at time `now` (the value of `time.Now()`). -/
def Controller.Authorize {σ : Type} (hmac : jwt.HMAC) (c : Controller σ) (now : Time)
    (login password : String) (w : World σ) : Except Error jwt.TokenString × World σ :=
  match invoke (Call.CheckAuth login password) (c.repo.CheckAuth login password) w with
  | (Except.error err, w1) => (Except.error ("failed to authorize user: " ++ err), w1)
  | (Except.ok user, w1) =>
    let claims : jwt.RegisteredClaims :=
      { Issuer := strconv.Itoa user.ID
        Subject := "authorized"
        Audience := ["1"]
        ExpiresAt := some (jwt.NewNumericDate (now + Hour * 24))
        NotBefore := some (jwt.NewNumericDate now)
        IssuedAt := some (jwt.NewNumericDate now)
        ID := strconv.Itoa user.ID }
    match jwt.SignedString hmac c.cfg.JWTKeyword claims with
    | Except.error err => (Except.error ("failed to sign token: " ++ err), w1)
    | Except.ok tokenString => (Except.ok tokenString, w1)

/-- Go `(*Controller).AddFile`. The outcome of `uuid.NewV4()` (the canonical
string of the generated identifier, or the generator's error) is the input
`newV4`. -/
def Controller.AddFile {σ : Type} (c : Controller σ) (newV4 : Except Error String)
    (image : Image) (w : World σ) : Except Error Unit × World σ :=
  match newV4 with
  | Except.error err => (Except.error ("failed to generate image name: " ++ err), w)
  | Except.ok imageName =>
    let image := { image with Name := imageName ++ image.Extension }
    match invoke (Call.AddImage image) (c.imageRepo.AddImage image) w with
    | (Except.error err, w1) => (Except.error ("failed to save image data to db: " ++ err), w1)
    | (Except.ok _, w1) =>
      match invoke (Call.PutObject image) (c.minio.PutObject image) w1 with
      | (Except.error err, w2) =>
        (Except.error ("failed to put image to fileStore: " ++ err), w2)
      | (Except.ok _, w2) => (Except.ok (), w2)

/-- Go `(*Controller).AuthorizeTG`. -/
def Controller.AuthorizeTG {σ : Type} (c : Controller σ) (tgID : Int) (login password : String)
    (w : World σ) : Except Error Unit × World σ :=
  match invoke (Call.CheckAuth login password) (c.repo.CheckAuth login password) w with
  | (Except.error err, w1) => (Except.error err, w1)
  | (Except.ok user, w1) =>
    match invoke (Call.CheckTgAuth tgID) (c.repo.CheckTgAuth tgID) w1 with
    | (Except.ok _, w2) => (Except.ok (), w2)
    | (Except.error _, w2) =>
      match invoke (Call.AuthorizeTG user.ID tgID) (c.repo.AuthorizeTG user.ID tgID) w2 with
      | (Except.error err, w3) => (Except.error err, w3)
      | (Except.ok _, w3) => (Except.ok (), w3)

/-- Go `(*Controller).GetImageObjects`. -/
def Controller.GetImageObjects {σ : Type} (c : Controller σ) (tgID : Int) (w : World σ) :
    Except Error (List Reader) × World σ :=
  match invoke (Call.CheckTgAuth tgID) (c.repo.CheckTgAuth tgID) w with
  | (Except.error err, w1) => (Except.error err, w1)
  | (Except.ok userID, w1) =>
    match invoke (Call.GetImages userID) (c.imageRepo.GetImages userID) w1 with
    | (Except.error err, w2) => (Except.error err, w2)
    | (Except.ok images, w2) =>
      match invoke (Call.GetObjects images) (c.minio.GetObjects images) w2 with
      | (Except.error err, w3) => (Except.error err, w3)
      | (Except.ok objects, w3) => (Except.ok objects, w3)

/-! ## internal/repository/user.go

The relational store is modelled by its two tables as lists of rows in
insertion order. A single-row query (`QueryRowxContext` + `StructScan`) yields
the first matching row, or `sql.ErrNoRows`. The schema lives in the migration
files; the model imposes no constraint on the tables and assigns the `id`
column of an inserted row from a per-table sequence. The store itself does not
fail (no lost connection, no cancelled context). -/

/-- Go struct `user` (row of `users`); `Description` is a `sql.NullString`,
`none` standing for SQL NULL. -/
structure user where
  ID : Int
  Name : String
  Login : String
  Password : String
  Description : Option String
  deriving DecidableEq, Repr

/-- Go struct `tgAuth` (row of `tg_auth`). -/
structure tgAuth where
  ID : Int
  UserID : Int
  TelegramID : Int
  deriving DecidableEq, Repr

/-- The relational store. -/
structure DB where
  users : List user
  tg_auth : List tgAuth
  users_id_seq : Int
  tg_auth_id_seq : Int
  deriving DecidableEq, Repr

/-- Go `convertUser`. -/
def convertUser (modelUser : User) : user :=
  { ID := modelUser.ID
    Name := modelUser.Name
    Login := modelUser.Login
    Password := modelUser.Password
    Description := some modelUser.Description }

/-- Go `(user).toModel`. -/
def user.toModel (u : user) : User :=
  { ID := u.ID
    Name := u.Name
    Login := u.Login
    Password := u.Password
    Description := u.Description.getD ""
    ImageUrls := [] }

/-- Message of `sql.ErrNoRows`. -/
def sqlErrNoRows : Error := "sql: no rows in result set"

/-- Go `(*UserRepo).AddUser`: `INSERT INTO users(name, description, login, password)`. -/
def UserRepo.AddUser (modelUser : User) (db : DB) : Except Error Unit × DB :=
  let row := convertUser modelUser
  (Except.ok (),
    { db with users := db.users ++ [{ row with ID := db.users_id_seq }]
              users_id_seq := db.users_id_seq + 1 })

/-- Go `(*UserRepo).GetUser`: `SELECT * FROM users WHERE id = $1`. -/
def UserRepo.GetUser (id : Int) (db : DB) : Except Error User × DB :=
  match db.users.find? (fun us => us.ID = id) with
  | none => (Except.error ("failed to scan struct user: " ++ sqlErrNoRows), db)
  | some us => (Except.ok us.toModel, db)

/-- Go `(*UserRepo).UpdateUser`: `UPDATE users set (...) = (...) WHERE id = :id`. -/
def UserRepo.UpdateUser (modelUser : User) (db : DB) : Except Error Unit × DB :=
  let row := convertUser modelUser
  (Except.ok (),
    { db with users := db.users.map (fun us => if us.ID = row.ID then row else us) })

/-- Go `(*UserRepo).DeleteUser`: `DELETE FROM users where id = $1`. -/
def UserRepo.DeleteUser (id : Int) (db : DB) : Except Error Unit × DB :=
  (Except.ok (), { db with users := db.users.filter (fun us => us.ID ≠ id) })

/-- Go `(*UserRepo).CheckAuth`:
`SELECT * FROM users WHERE login = $1 AND password = $2`. -/
def UserRepo.CheckAuth (login password : String) (db : DB) : Except Error User × DB :=
  match db.users.find? (fun us => us.Login = login ∧ us.Password = password) with
  | none => (Except.error ("failed to scan struct user: " ++ sqlErrNoRows), db)
  | some us => (Except.ok us.toModel, db)

/-- Go `(*UserRepo).CheckTgAuth`:
`SELECT * FROM tg_auth tga WHERE tga.telegram_id = $1`. -/
def UserRepo.CheckTgAuth (tgID : Int) (db : DB) : Except Error Int × DB :=
  match db.tg_auth.find? (fun tga => tga.TelegramID = tgID) with
  | none => (Except.error ("failed to tg auth: " ++ sqlErrNoRows), db)
  | some tgAuth => (Except.ok tgAuth.UserID, db)

/-- Go `(*UserRepo).AuthorizeTG`:
`INSERT INTO tg_auth(user_id, telegram_id) VALUES ($1, $2)`. -/
def UserRepo.AuthorizeTG (userID : Int) (telegramID : Int) (db : DB) : Except Error Unit × DB :=
  (Except.ok (),
    { db with
        tg_auth := db.tg_auth ++
          [{ ID := db.tg_auth_id_seq, UserID := userID, TelegramID := telegramID }]
        tg_auth_id_seq := db.tg_auth_id_seq + 1 })

/-- Run an operation of the relational store inside a larger state that also
holds the state `ε` of the other collaborators. -/
def onDB {ε α : Type} (f : DB → Except Error α × DB) (s : DB × ε) :
    Except Error α × (DB × ε) :=
  ((f s.1).1, ((f s.1).2, s.2))

/-- `*UserRepo` as an implementation of the interface `repository`. -/
def UserRepo (ε : Type) : repository (DB × ε) where
  AddUser := fun u => onDB (UserRepo.AddUser u)
  GetUser := fun id => onDB (UserRepo.GetUser id)
  UpdateUser := fun u => onDB (UserRepo.UpdateUser u)
  DeleteUser := fun id => onDB (UserRepo.DeleteUser id)
  CheckAuth := fun l p => onDB (UserRepo.CheckAuth l p)
  CheckTgAuth := fun tgID => onDB (UserRepo.CheckTgAuth tgID)
  AuthorizeTG := fun userID tgID => onDB (UserRepo.AuthorizeTG userID tgID)

/-- Go `NewController`. -/
def NewController {σ : Type} (repo : repository σ) (imageRepo : imageRepository σ)
    (cfg : Config) (m : fileStorage σ) : Controller σ :=
  { repo := repo, imageRepo := imageRepo, cfg := cfg, minio := m }

/-! ## internal/middleware/auth.go -/

/-- The parts of an `*http.Request` the gate reads: the `Authorization` header
and the request context. -/
structure Request where
  Authorization : jwt.TokenString
  ctx : Context
  deriving DecidableEq, Repr

/-- Go `(*http.Request).WithContext`. -/
def Request.WithContext (r : Request) (ctx : Context) : Request := { r with ctx := ctx }

/-- What one run of the gate did: the status written by the gate itself (if
any), the body written by the gate (if any), the errors logged, and the request
handed to the downstream handler (`none` when `next.ServeHTTP` was not called). -/
structure Served where
  status : Option Nat
  body : Option String
  logged : List Error
  next : Option Request
  deriving DecidableEq, Repr

/-- Go `http.StatusUnauthorized`. -/
def StatusUnauthorized : Nat := 401

/-- Go `writeErr`. `ParseResponse` is `response.ParseResponse`, a function of
the repository that renders the JSON body and returns `([]byte, error)`; the
bytes are written whether or not it reports an error. -/
def writeErr (ParseResponse : String → Bool → String × Option Error) (err : Error) : Served :=
  match ParseResponse err true with
  | (b, some err2) =>
    { status := some StatusUnauthorized, body := some b, logged := [err, err2], next := none }
  | (b, none) =>
    { status := some StatusUnauthorized, body := some b, logged := [err], next := none }

/-- Go `Auth(keyword, l)(next)` serving request `r` at time `now`. -/
def Auth (hmac : jwt.HMAC) (ParseResponse : String → Bool → String × Option Error)
    (keyword : String) (now : Time) (r : Request) : Served :=
  let tokenStr := r.Authorization
  match jwt.Parse hmac keyword now tokenStr with
  | Except.error _ =>
    match ParseResponse "unauthorized" true with
    | (_, some err) =>
      { status := some StatusUnauthorized, body := none, logged := [err], next := none }
    | (b, none) =>
      { status := some StatusUnauthorized, body := some b, logged := [], next := none }
  | Except.ok claims =>
    match claims.GetIssuer with
    | Except.error err => writeErr ParseResponse err
    | Except.ok idStr =>
      match strconv.ParseInt idStr with
      | Except.error err => writeErr ParseResponse err
      | Except.ok id =>
        let ctx := r.ctx
        let ctx := ctx.WithValue (GoAny.int id)
        { status := none, body := none, logged := [], next := some (r.WithContext ctx) }

/-! ## internal/telegram/telegram.go -/

/-- Go interface `controller` of package `telegram`. -/
structure telegram.controller (σ : Type) where
  AuthorizeTG : Int → String → String → World σ → Except Error Unit × World σ
  GetImageObjects : Int → World σ → Except Error (List Reader) × World σ

/-- `*service.Controller` as an implementation of `telegram.controller`. -/
def Controller.asBotController {σ : Type} (c : Controller σ) : telegram.controller σ :=
  { AuthorizeTG := fun tgID login password => c.AuthorizeTG tgID login password
    GetImageObjects := fun tgID => c.GetImageObjects tgID }

/-- Go struct `Bot`: the controller it drives. -/
structure Bot (σ : Type) where
  controller : telegram.controller σ

/-- The fields of a `*tgbotapi.Message` the bot reads. -/
structure Message where
  Text : String
  ChatID : Int
  FromID : Int
  MessageID : Int
  deriving DecidableEq, Repr

/-- The fields of a `tgbotapi.MessageConfig` the bot sets; `ReplyMarkup` is the
name of the single keyboard button's callback, when a keyboard is attached. -/
structure MessageConfig where
  ChatID : Int
  Text : String
  ReplyToMessageID : Int
  ReplyMarkup : Option String
  deriving DecidableEq, Repr

/-- Go `tgbotapi.NewMessage`. -/
def NewMessage (chatID : Int) (text : String) : MessageConfig :=
  { ChatID := chatID, Text := text, ReplyToMessageID := 0, ReplyMarkup := none }

/-- A Go call either returns or panics with a run-time error. -/
inductive Outcome (α : Type) where
  | panic (msg : String)
  | returned (a : α)

/-- Go constant `show`. -/
def telegram.show : String := "show"

/-- Go constant `startCMD`. -/
def telegram.startCMD : String := "/start"

/-- Go `(*Bot).ProcessMessage`. When it returns, the result is the message
handed to `botAPI.Send` and the world after the controller call. -/
def Bot.ProcessMessage {σ : Type} (b : Bot σ) (message : Message) (w : World σ) :
    Outcome (MessageConfig × World σ) :=
  if message.Text = telegram.startCMD then
    let msg := NewMessage message.ChatID "Вот ваша клавиатура"
    Outcome.returned
      ({ msg with ReplyToMessageID := message.MessageID, ReplyMarkup := some telegram.show }, w)
  else
    let s := strings.Split message.Text.data
    let msg := NewMessage message.ChatID "Вы зарегистрированы"
    match s[0]? with
    | none => Outcome.panic "runtime error: index out of range [0] with length 0"
    | some s0 =>
      match s[1]? with
      | none => Outcome.panic "runtime error: index out of range [1] with length 1"
      | some s1 =>
        match b.controller.AuthorizeTG message.FromID (String.mk s0) (String.mk s1) w with
        | (Except.error _, w1) =>
          Outcome.returned (NewMessage message.ChatID "Не получилось авторизоваться", w1)
        | (Except.ok _, w1) => Outcome.returned (msg, w1)

/-! ## In-memory asset stores

`repository.NewImageRepo` and `filestore.NewMinio` are not part of the sources
at hand. The controller only sees them through `imageRepository` and
`fileStorage`, and the theorems below hold for every implementation; the two
implementations here instantiate them on concrete data. -/

/-- State of the asset collaborators: metadata records and the bucket. -/
structure Assets where
  images : List Image
  bucket : List (String × Reader)
  deriving DecidableEq, Repr

/-- Modelled from the spec: the `AssetMetadataStore` ("create Asset record,
list Asset records by owning identity id"), whose implementation
`repository.ImageRepo` is missing. -/
def InMemory.imageRepo : imageRepository (DB × Assets) where
  AddImage := fun image s =>
    (Except.ok (), (s.1, { s.2 with images := s.2.images ++ [image] }))
  GetImages := fun userID s =>
    (Except.ok (s.2.images.filter (fun i => i.UserID = userID)), s)

/-- Fetch the payloads stored under the names of `images`, in input order. -/
def InMemory.fetch (bucket : List (String × Reader)) : List Image → Except Error (List Reader)
  | [] => Except.ok []
  | i :: rest =>
    match bucket.lookup i.Name with
    | none => Except.error ("failed to get object: " ++ i.Name)
    | some data =>
      match InMemory.fetch bucket rest with
      | Except.error err => Except.error err
      | Except.ok objects => Except.ok (data :: objects)

/-- Modelled from the spec: the `ObjectStore` ("store payload keyed by an
Asset's stored name; resolve a set of Assets to presentable URLs; fetch a set
of Assets as binary payload handles, preserving input order"), whose
implementation `filestore.Minio` is missing. -/
def InMemory.minio : fileStorage (DB × Assets) where
  PutObject := fun image s =>
    (Except.ok (), (s.1, { s.2 with bucket := (image.Name, image.Data) :: s.2.bucket }))
  GetUrls := fun images s => (Except.ok (images.map (fun i => "/bucket/" ++ i.Name)), s)
  GetObjects := fun images s => (InMemory.fetch s.2.bucket images, s)

/-- The controller of `main.go`, on the in-memory asset stores. -/
def InMemory.controller (cfg : Config) : Controller (DB × Assets) :=
  NewController (UserRepo Assets) InMemory.imageRepo cfg InMemory.minio

/-- A store holding the identity `alice`/`p1` with id 1, no binding, no asset. -/
def InMemory.aliceDB : DB :=
  { users := [{ ID := 1, Name := "Alice", Login := "alice", Password := "p1",
                Description := none }]
    tg_auth := []
    users_id_seq := 2
    tg_auth_id_seq := 1 }

/-- Initial world over `aliceDB`. -/
def InMemory.aliceWorld : World (DB × Assets) :=
  { st := (InMemory.aliceDB, { images := [], bucket := [] }), trace := [] }

/-- Two assets of `alice` with one asset of another identity in between. -/
def InMemory.sampleImages : List Image :=
  [ { ID := 1, UserID := 1, Name := "a.png", Extension := ".png", Data := [1, 2] },
    { ID := 2, UserID := 7, Name := "b.png", Extension := ".png", Data := [9] },
    { ID := 3, UserID := 1, Name := "c.jpg", Extension := ".jpg", Data := [3] } ]

/-- A world where chat 555 is bound to `alice`, who owns two stored assets. -/
def InMemory.linkedWorld : World (DB × Assets) :=
  { st := ({ InMemory.aliceDB with
               tg_auth := [{ ID := 1, UserID := 1, TelegramID := 555 }]
               tg_auth_id_seq := 2 },
           { images := InMemory.sampleImages
             bucket := [("c.jpg", [3]), ("b.png", [9]), ("a.png", [1, 2])] })
    trace := [] }

/-- A stand-in for the keyed MAC, for evaluation on concrete tokens. -/
def InMemory.hmac : jwt.HMAC :=
  fun alg key claims =>
    (alg.data ++ key.data).map Char.toNat ++ [claims.exp.getD 0, claims.nbf.getD 0]

/-- Modelled from the spec: `response.ParseResponse`, which is missing, renders
"a JSON body `\x7b"message": <reason>, "error": true\x7d`". -/
def InMemory.ParseResponse (message : String) (isError : Bool) : String × Option Error :=
  ("\x7b\"message\":" ++ message.quote ++ ",\"error\":" ++ toString isError ++ "\x7d", none)

/-- A correctly signed, currently valid token (at any time before second 200)
with the given issuer claim. -/
def InMemory.tokenWithIssuer (iss : Option jwt.ClaimValue) : jwt.TokenString :=
  jwt.TokenString.compact "HS256"
    { iss := iss, sub := none, aud := [], exp := some (200 * Second), nbf := none, iat := none,
      jti := none }
    (InMemory.hmac "HS256" "k"
      { iss := iss, sub := none, aud := [], exp := some (200 * Second), nbf := none,
        iat := none, jti := none })

/-- The shape of a decimal integer: an optional sign followed by at least one
decimal digit. Stated on the text alone, independently of `strconv.ParseInt`. -/
def isSignedDecimal (s : String) : Bool :=
  match s.data with
  | [] => false
  | c :: rest =>
    if c = '+' ∨ c = '-' then
      !rest.isEmpty && rest.all (fun x => '0' ≤ x ∧ x ≤ '9')
    else
      (c :: rest).all (fun x => '0' ≤ x ∧ x ≤ '9')

/-! ## Theorems -/

/-- C1: self-service invariant of `Controller.UpdateUser`. Whatever the context
carries under the id key (nothing at all, an `int`, or a value of another
type), if it is not the `int` equal to `user.ID` the call fails with
"users do not match", the store's `UpdateUser` is not invoked (the trace and
the store state are unchanged); if it is `user.ID` the outcome is exactly the
recorded call of the store's `UpdateUser`. -/
theorem UpdateUser_self_service {σ : Type} (c : Controller σ) (ctx : Context) (user : User)
    (w : World σ) :
    (ctx.Value ≠ GoAny.int user.ID →
        c.UpdateUser ctx user w = (Except.error "users do not match", w)) ∧
    (ctx.Value = GoAny.int user.ID →
        (c.UpdateUser ctx user w).1 = (c.repo.UpdateUser user w.st).1 ∧
        (c.UpdateUser ctx user w).2.st = (c.repo.UpdateUser user w.st).2 ∧
        (c.UpdateUser ctx user w).2.trace = w.trace ++ [Call.UpdateUser user]) := by
  constructor
  · intro h
    simp [Controller.UpdateUser, h]
  · intro h
    simp [Controller.UpdateUser, h, invoke]

/-- `UpdateUser` on the in-memory stores: without an id in the context the call
is refused and nothing is recorded; with `alice`'s own id her row is rewritten. -/
theorem UpdateUser_in_memory_example :
    (InMemory.controller ⟨"k"⟩).UpdateUser Context.Background
        { ID := 1, Name := "A", Login := "alice", Password := "p2", Description := "d",
          ImageUrls := [] } InMemory.aliceWorld
      = (Except.error "users do not match", InMemory.aliceWorld) ∧
    ((InMemory.controller ⟨"k"⟩).UpdateUser { idCtxKey := GoAny.int 1 }
        { ID := 1, Name := "A", Login := "alice", Password := "p2", Description := "d",
          ImageUrls := [] } InMemory.aliceWorld).2.st.1.users
      = [{ ID := 1, Name := "A", Login := "alice", Password := "p2", Description := some "d" }] :=
  ⟨rfl, rfl⟩

/-! ### Facts about the relational store -/

/-- `CheckAuth` finds no row: it fails and leaves the store alone. -/
theorem CheckAuth_no_match (login password : String) (db : DB)
    (hno : ∀ us ∈ db.users, ¬ (us.Login = login ∧ us.Password = password)) :
    UserRepo.CheckAuth login password db
      = (Except.error ("failed to scan struct user: " ++ sqlErrNoRows), db) := by
  have hfind : db.users.find? (fun us => us.Login = login ∧ us.Password = password)
      = none := by
    rw [List.find?_eq_none]
    intro us hus
    simpa using hno us hus
  unfold UserRepo.CheckAuth
  rw [hfind]

/-- `CheckAuth` returns the first matching row, converted, and leaves the store alone. -/
theorem CheckAuth_match (login password : String) (db : DB) (us : user)
    (hfind : db.users.find? (fun us => us.Login = login ∧ us.Password = password) = some us) :
    UserRepo.CheckAuth login password db = (Except.ok us.toModel, db) := by
  unfold UserRepo.CheckAuth
  rw [hfind]

/-- `CheckTgAuth` on a chat id without binding fails and leaves the store alone. -/
theorem CheckTgAuth_unbound (tgID : Int) (db : DB)
    (hno : ∀ b ∈ db.tg_auth, b.TelegramID ≠ tgID) :
    UserRepo.CheckTgAuth tgID db = (Except.error ("failed to tg auth: " ++ sqlErrNoRows), db) := by
  have hfind : db.tg_auth.find? (fun tga => tga.TelegramID = tgID) = none := by
    rw [List.find?_eq_none]
    intro b hb
    simpa using hno b hb
  unfold UserRepo.CheckTgAuth
  rw [hfind]

/-- `CheckTgAuth` returns the user id of the first binding of the chat id. -/
theorem CheckTgAuth_bound (tgID : Int) (db : DB) (b : tgAuth)
    (hfind : db.tg_auth.find? (fun tga => tga.TelegramID = tgID) = some b) :
    UserRepo.CheckTgAuth tgID db = (Except.ok b.UserID, db) := by
  unfold UserRepo.CheckTgAuth
  rw [hfind]

/-- C6: a failed credential check keeps the chat identity unlinked. When no
row of `users` matches `(login, password)`, `Controller.AuthorizeTG` returns the
credential-check error, the only interface call made is `CheckAuth` (neither
the binding lookup nor the binding creation), and the store, hence the set of
bindings, is unchanged. -/
theorem AuthorizeTG_failed_check_unlinked {ε : Type} (imageRepo : imageRepository (DB × ε))
    (cfg : Config) (m : fileStorage (DB × ε)) (tgID : Int) (login password : String)
    (w : World (DB × ε))
    (hno : ∀ us ∈ w.st.1.users, ¬ (us.Login = login ∧ us.Password = password)) :
    ((NewController (UserRepo ε) imageRepo cfg m).AuthorizeTG tgID login password w).1
        = Except.error ("failed to scan struct user: " ++ sqlErrNoRows) ∧
    ((NewController (UserRepo ε) imageRepo cfg m).AuthorizeTG tgID login password w).2.st
        = w.st ∧
    ((NewController (UserRepo ε) imageRepo cfg m).AuthorizeTG tgID login password w).2.trace
        = w.trace ++ [Call.CheckAuth login password] := by
  have hCA := CheckAuth_no_match login password w.st.1 hno
  simp [Controller.AuthorizeTG, NewController, UserRepo, invoke, onDB, hCA]

/-- Witness of C6 on `aliceWorld` with the wrong password. -/
theorem AuthorizeTG_failed_check_unlinked_witness :
    ((InMemory.controller ⟨"k"⟩).AuthorizeTG 555 "alice" "wrong" InMemory.aliceWorld).1
        = Except.error ("failed to scan struct user: " ++ sqlErrNoRows) ∧
    ((InMemory.controller ⟨"k"⟩).AuthorizeTG 555 "alice" "wrong" InMemory.aliceWorld).2.st
        = InMemory.aliceWorld.st ∧
    ((InMemory.controller ⟨"k"⟩).AuthorizeTG 555 "alice" "wrong" InMemory.aliceWorld).2.trace
        = InMemory.aliceWorld.trace ++ [Call.CheckAuth "alice" "wrong"] :=
  AuthorizeTG_failed_check_unlinked InMemory.imageRepo ⟨"k"⟩ InMemory.minio 555 "alice" "wrong"
    InMemory.aliceWorld (by decide)

/-- Outcome of `Controller.AuthorizeTG` from an unbound chat id with matching
credentials: success, one row appended to `tg_auth`, three interface calls. -/
theorem AuthorizeTG_links {ε : Type} (imageRepo : imageRepository (DB × ε))
    (cfg : Config) (m : fileStorage (DB × ε)) (tgID : Int) (login password : String)
    (w : World (DB × ε)) (us : user)
    (hmatch : w.st.1.users.find? (fun r => r.Login = login ∧ r.Password = password) = some us)
    (hunbound : ∀ b ∈ w.st.1.tg_auth, b.TelegramID ≠ tgID) :
    (NewController (UserRepo ε) imageRepo cfg m).AuthorizeTG tgID login password w
      = (Except.ok (),
          { st := ((UserRepo.AuthorizeTG us.ID tgID w.st.1).2, w.st.2)
            trace := w.trace ++ [Call.CheckAuth login password] ++ [Call.CheckTgAuth tgID]
              ++ [Call.AuthorizeTG us.ID tgID] }) := by
  have hCA := CheckAuth_match login password w.st.1 us hmatch
  have hTG := CheckTgAuth_unbound tgID w.st.1 hunbound
  simp [Controller.AuthorizeTG, NewController, UserRepo, invoke, onDB, hCA, hTG,
    UserRepo.AuthorizeTG, user.toModel]

/-- Outcome of `Controller.AuthorizeTG` on a chat id that already has a binding:
success after the two lookups, nothing written. -/
theorem AuthorizeTG_already_bound {ε : Type} (imageRepo : imageRepository (DB × ε))
    (cfg : Config) (m : fileStorage (DB × ε)) (tgID : Int) (login password : String)
    (w : World (DB × ε)) (us : user) (b : tgAuth)
    (hmatch : w.st.1.users.find? (fun r => r.Login = login ∧ r.Password = password) = some us)
    (hbound : w.st.1.tg_auth.find? (fun tga => tga.TelegramID = tgID) = some b) :
    (NewController (UserRepo ε) imageRepo cfg m).AuthorizeTG tgID login password w
      = (Except.ok (),
          { st := w.st
            trace := w.trace ++ [Call.CheckAuth login password] ++ [Call.CheckTgAuth tgID] }) := by
  have hCA := CheckAuth_match login password w.st.1 us hmatch
  have hTG := CheckTgAuth_bound tgID w.st.1 b hbound
  simp [Controller.AuthorizeTG, NewController, UserRepo, invoke, onDB, hCA, hTG]

/-- C5: chat-link idempotence. From a store where `(login, password)` matches the
row `us` and `tgID` has no binding, two calls of `Controller.AuthorizeTG` in a row
both succeed; afterwards `tg_auth` holds exactly one row for `tgID`, bound to
`us.ID`; the second call leaves the store as the first one left it and makes
only the two lookups (no `AuthorizeTG` on the store). -/
theorem AuthorizeTG_twice_one_binding {ε : Type} (imageRepo : imageRepository (DB × ε))
    (cfg : Config) (m : fileStorage (DB × ε)) (tgID : Int) (login password : String)
    (w : World (DB × ε)) (us : user)
    (hmatch : w.st.1.users.find? (fun r => r.Login = login ∧ r.Password = password) = some us)
    (hunbound : ∀ b ∈ w.st.1.tg_auth, b.TelegramID ≠ tgID) :
    ((NewController (UserRepo ε) imageRepo cfg m).AuthorizeTG tgID login password w).1
        = Except.ok () ∧
    ((NewController (UserRepo ε) imageRepo cfg m).AuthorizeTG tgID login password
        ((NewController (UserRepo ε) imageRepo cfg m).AuthorizeTG tgID login password w).2).1
        = Except.ok () ∧
    (((NewController (UserRepo ε) imageRepo cfg m).AuthorizeTG tgID login password
        ((NewController (UserRepo ε) imageRepo cfg m).AuthorizeTG tgID login password w).2).2.st.1.tg_auth.filter
          (fun b => b.TelegramID = tgID))
        = [{ ID := w.st.1.tg_auth_id_seq, UserID := us.ID, TelegramID := tgID }] ∧
    ((NewController (UserRepo ε) imageRepo cfg m).AuthorizeTG tgID login password
        ((NewController (UserRepo ε) imageRepo cfg m).AuthorizeTG tgID login password w).2).2.st
        = ((NewController (UserRepo ε) imageRepo cfg m).AuthorizeTG tgID login password w).2.st ∧
    ((NewController (UserRepo ε) imageRepo cfg m).AuthorizeTG tgID login password
        ((NewController (UserRepo ε) imageRepo cfg m).AuthorizeTG tgID login password w).2).2.trace
        = ((NewController (UserRepo ε) imageRepo cfg m).AuthorizeTG tgID login password w).2.trace
            ++ [Call.CheckAuth login password, Call.CheckTgAuth tgID] := by
  have h1 := AuthorizeTG_links imageRepo cfg m tgID login password w us hmatch hunbound
  have hold : w.st.1.tg_auth.find? (fun tga => tga.TelegramID = tgID) = none := by
    rw [List.find?_eq_none]
    intro b hb
    simpa using hunbound b hb
  have hfilter : w.st.1.tg_auth.filter (fun b => b.TelegramID = tgID) = [] := by
    rw [List.filter_eq_nil_iff]
    intro b hb
    simpa using hunbound b hb
  have h2 := AuthorizeTG_already_bound imageRepo cfg m tgID login password
    { st := ((UserRepo.AuthorizeTG us.ID tgID w.st.1).2, w.st.2)
      trace := w.trace ++ [Call.CheckAuth login password] ++ [Call.CheckTgAuth tgID]
        ++ [Call.AuthorizeTG us.ID tgID] }
    us { ID := w.st.1.tg_auth_id_seq, UserID := us.ID, TelegramID := tgID }
    (by simpa [UserRepo.AuthorizeTG] using hmatch)
    (by simp [UserRepo.AuthorizeTG, List.find?_append, hold])
  simp only [h1, h2]
  simp [UserRepo.AuthorizeTG, List.filter_append, hfilter]

/-- Witness of C5: `alice` links chat 555 twice on `aliceWorld`. -/
theorem AuthorizeTG_twice_one_binding_witness :
    ((InMemory.controller ⟨"k"⟩).AuthorizeTG 555 "alice" "p1" InMemory.aliceWorld).1
        = Except.ok () ∧
    ((InMemory.controller ⟨"k"⟩).AuthorizeTG 555 "alice" "p1"
        ((InMemory.controller ⟨"k"⟩).AuthorizeTG 555 "alice" "p1" InMemory.aliceWorld).2).1
        = Except.ok () ∧
    (((InMemory.controller ⟨"k"⟩).AuthorizeTG 555 "alice" "p1"
        ((InMemory.controller ⟨"k"⟩).AuthorizeTG 555 "alice" "p1"
          InMemory.aliceWorld).2).2.st.1.tg_auth.filter (fun b => b.TelegramID = 555))
        = [{ ID := 1, UserID := 1, TelegramID := 555 }] ∧
    ((InMemory.controller ⟨"k"⟩).AuthorizeTG 555 "alice" "p1"
        ((InMemory.controller ⟨"k"⟩).AuthorizeTG 555 "alice" "p1" InMemory.aliceWorld).2).2.st
        = ((InMemory.controller ⟨"k"⟩).AuthorizeTG 555 "alice" "p1" InMemory.aliceWorld).2.st ∧
    ((InMemory.controller ⟨"k"⟩).AuthorizeTG 555 "alice" "p1"
        ((InMemory.controller ⟨"k"⟩).AuthorizeTG 555 "alice" "p1" InMemory.aliceWorld).2).2.trace
        = ((InMemory.controller ⟨"k"⟩).AuthorizeTG 555 "alice" "p1" InMemory.aliceWorld).2.trace
            ++ [Call.CheckAuth "alice" "p1", Call.CheckTgAuth 555] :=
  AuthorizeTG_twice_one_binding InMemory.imageRepo ⟨"k"⟩ InMemory.minio 555 "alice" "p1"
    InMemory.aliceWorld
    { ID := 1, Name := "Alice", Login := "alice", Password := "p1", Description := none }
    (by decide) (by decide)

/-- C7: asset order preservation in `Controller.GetImageObjects`. When `tgID` is
bound to identity `u`, the metadata store lists `images` for `u` and the
object store answers `GetObjects` with one payload per asset in input order,
the call succeeds with a sequence of the same length as `images` whose `i`-th
element is the payload of the `i`-th asset; an empty asset list gives the empty
sequence and no error. -/
theorem GetImageObjects_preserves_order {σ : Type} (c : Controller σ) (tgID : Int)
    (w : World σ) (u : Int) (images : List Image) (payload : Image → Reader)
    (hbound : (c.repo.CheckTgAuth tgID w.st).1 = Except.ok u)
    (himages : (c.imageRepo.GetImages u (c.repo.CheckTgAuth tgID w.st).2).1 = Except.ok images)
    (hobjects : (c.minio.GetObjects images
        (c.imageRepo.GetImages u (c.repo.CheckTgAuth tgID w.st).2).2).1
          = Except.ok (images.map payload)) :
    ∃ objects : List Reader,
      (c.GetImageObjects tgID w).1 = Except.ok objects ∧
      objects.length = images.length ∧
      (∀ (i : Nat) (h : i < images.length), objects[i]? = some (payload images[i])) ∧
      (images = [] → objects = []) := by
  refine ⟨images.map payload, ?_, by simp, ?_, ?_⟩
  · have e1 : invoke (Call.CheckTgAuth tgID) (c.repo.CheckTgAuth tgID) w
        = (Except.ok u, { st := (c.repo.CheckTgAuth tgID w.st).2
                          trace := w.trace ++ [Call.CheckTgAuth tgID] }) := by
      simp [invoke, hbound]
    have e2 : invoke (Call.GetImages u) (c.imageRepo.GetImages u)
          { st := (c.repo.CheckTgAuth tgID w.st).2, trace := w.trace ++ [Call.CheckTgAuth tgID] }
        = (Except.ok images,
            { st := (c.imageRepo.GetImages u (c.repo.CheckTgAuth tgID w.st).2).2
              trace := w.trace ++ [Call.CheckTgAuth tgID] ++ [Call.GetImages u] }) := by
      simp [invoke, himages]
    have e3 : invoke (Call.GetObjects images) (c.minio.GetObjects images)
          { st := (c.imageRepo.GetImages u (c.repo.CheckTgAuth tgID w.st).2).2
            trace := w.trace ++ [Call.CheckTgAuth tgID] ++ [Call.GetImages u] }
        = (Except.ok (images.map payload),
            { st := (c.minio.GetObjects images
                (c.imageRepo.GetImages u (c.repo.CheckTgAuth tgID w.st).2).2).2
              trace := w.trace ++ [Call.CheckTgAuth tgID] ++ [Call.GetImages u]
                ++ [Call.GetObjects images] }) := by
      simp [invoke, hobjects]
    simp only [Controller.GetImageObjects, e1, e2, e3]
  · intro i h
    simp [h]
  · intro h
    simp [h]

/-- Witness of C7: chat 555 in `linkedWorld` receives the payloads of the two
assets of `alice`, in the order of her asset list. -/
theorem GetImageObjects_preserves_order_witness :
    ∃ objects : List Reader,
      ((InMemory.controller ⟨"k"⟩).GetImageObjects 555 InMemory.linkedWorld).1
        = Except.ok objects ∧
      objects.length
        = (InMemory.sampleImages.filter (fun i => i.UserID = 1)).length ∧
      (∀ (i : Nat) (h : i < (InMemory.sampleImages.filter (fun i => i.UserID = 1)).length),
        objects[i]?
          = some ((fun (a : Image) => a.Data)
              (InMemory.sampleImages.filter (fun i => i.UserID = 1))[i])) ∧
      (InMemory.sampleImages.filter (fun i => i.UserID = 1) = [] → objects = []) :=
  GetImageObjects_preserves_order (InMemory.controller ⟨"k"⟩) 555 InMemory.linkedWorld 1
    (InMemory.sampleImages.filter (fun i => i.UserID = 1)) (fun a => a.Data)
    rfl rfl rfl

/-- C9: upload write ordering in `Controller.AddFile`. With `stored` the image
whose name is the generated identifier followed by the caller's extension:
the caller's own `Name` has no influence; a failing generator makes no call;
a failing `AddImage` yields an error with `AddImage stored` as the only call;
a failing `PutObject` after a successful `AddImage` yields an error, the calls
being `AddImage stored` then `PutObject stored` and nothing after (the
metadata record stays); the two successes yield success; and success is
returned only when the generator and both writes succeeded. -/
theorem AddFile_write_ordering {σ : Type} (c : Controller σ) (image : Image) (w : World σ)
    (name : String) :
    (∀ supplied : String,
        c.AddFile (Except.ok name) { image with Name := supplied } w
          = c.AddFile (Except.ok name) image w) ∧
    (∀ e : Error, c.AddFile (Except.error e) image w
        = (Except.error ("failed to generate image name: " ++ e), w)) ∧
    (∀ e : Error,
        (c.imageRepo.AddImage { image with Name := name ++ image.Extension } w.st).1
            = Except.error e →
        c.AddFile (Except.ok name) image w
          = (Except.error ("failed to save image data to db: " ++ e),
              { st := (c.imageRepo.AddImage
                  { image with Name := name ++ image.Extension } w.st).2
                trace := w.trace
                  ++ [Call.AddImage { image with Name := name ++ image.Extension }] })) ∧
    (∀ e : Error,
        (c.imageRepo.AddImage { image with Name := name ++ image.Extension } w.st).1
            = Except.ok () →
        (c.minio.PutObject { image with Name := name ++ image.Extension }
            (c.imageRepo.AddImage { image with Name := name ++ image.Extension } w.st).2).1
            = Except.error e →
        c.AddFile (Except.ok name) image w
          = (Except.error ("failed to put image to fileStore: " ++ e),
              { st := (c.minio.PutObject { image with Name := name ++ image.Extension }
                  (c.imageRepo.AddImage
                    { image with Name := name ++ image.Extension } w.st).2).2
                trace := w.trace
                  ++ [Call.AddImage { image with Name := name ++ image.Extension }]
                  ++ [Call.PutObject { image with Name := name ++ image.Extension }] })) ∧
    ((c.imageRepo.AddImage { image with Name := name ++ image.Extension } w.st).1
            = Except.ok () →
        (c.minio.PutObject { image with Name := name ++ image.Extension }
            (c.imageRepo.AddImage { image with Name := name ++ image.Extension } w.st).2).1
            = Except.ok () →
        c.AddFile (Except.ok name) image w
          = (Except.ok (),
              { st := (c.minio.PutObject { image with Name := name ++ image.Extension }
                  (c.imageRepo.AddImage
                    { image with Name := name ++ image.Extension } w.st).2).2
                trace := w.trace
                  ++ [Call.AddImage { image with Name := name ++ image.Extension }]
                  ++ [Call.PutObject { image with Name := name ++ image.Extension }] })) ∧
    (∀ newV4 : Except Error String, (c.AddFile newV4 image w).1 = Except.ok () →
        ∃ generated : String, newV4 = Except.ok generated ∧
          (c.imageRepo.AddImage { image with Name := generated ++ image.Extension } w.st).1
            = Except.ok () ∧
          (c.minio.PutObject { image with Name := generated ++ image.Extension }
            (c.imageRepo.AddImage
              { image with Name := generated ++ image.Extension } w.st).2).1
            = Except.ok ()) := by
  refine ⟨?_, ?_, ?_, ?_, ?_, ?_⟩
  · intro supplied
    simp [Controller.AddFile]
  · intro e
    simp [Controller.AddFile]
  · intro e ha
    simp [Controller.AddFile, invoke, ha]
  · intro e ha hp
    simp [Controller.AddFile, invoke, ha, hp]
  · intro ha hp
    simp [Controller.AddFile, invoke, ha, hp]
  · intro newV4 hok
    cases newV4 with
    | error e => simp [Controller.AddFile] at hok
    | ok generated =>
      refine ⟨generated, rfl, ?_⟩
      simp only [Controller.AddFile, invoke] at hok
      cases ha : (c.imageRepo.AddImage
          { image with Name := generated ++ image.Extension } w.st).1 with
      | error e => simp [ha] at hok
      | ok a =>
        cases hp : (c.minio.PutObject { image with Name := generated ++ image.Extension }
            (c.imageRepo.AddImage
              { image with Name := generated ++ image.Extension } w.st).2).1 with
        | error e => simp [ha, hp] at hok
        | ok b => exact ⟨rfl, rfl⟩

/-- `AddFile` on the in-memory stores: the record and the payload are both
stored under the generated name with the extension `.png`, whatever name the
caller sent. -/
theorem AddFile_in_memory_example :
    ((InMemory.controller ⟨"k"⟩).AddFile (Except.ok "6ba7b810-9dad-41d1-80b4-00c04fd430c8")
        { ID := 0, UserID := 1, Name := "evil", Extension := ".png", Data := [5] }
        InMemory.aliceWorld).2.st.2
      = { images := [{ ID := 0, UserID := 1,
                       Name := "6ba7b810-9dad-41d1-80b4-00c04fd430c8.png",
                       Extension := ".png", Data := [5] }]
          bucket := [("6ba7b810-9dad-41d1-80b4-00c04fd430c8.png", [5])] } := by
  rfl

/-- C10, as stated, fails: `Controller.GetUser` on the in-memory stores returns
`alice` together with her password `p1`. -/
theorem GetUser_returns_password :
    ∃ u : User, ((InMemory.controller ⟨"k"⟩).GetUser 1 InMemory.aliceWorld).1 = Except.ok u ∧
      u.Password = "p1" ∧ u.Password ≠ "" :=
  ⟨{ ID := 1, Name := "Alice", Login := "alice", Password := "p1", Description := "",
     ImageUrls := [] }, rfl, rfl, by decide⟩

/-- C10, amended: for every store state and every id that resolves to the row
`us`, when the asset lookup and the URL resolution succeed `Controller.GetUser`
returns the identity read from the store with only `ImageUrls` replaced; its
`Password` is the stored password, unchanged. -/
theorem GetUser_carries_stored_password {ε : Type} (imageRepo : imageRepository (DB × ε))
    (cfg : Config) (m : fileStorage (DB × ε)) (id : Int) (w : World (DB × ε)) (us : user)
    (images : List Image) (urls : List String)
    (hrow : w.st.1.users.find? (fun r => r.ID = id) = some us)
    (himages : (imageRepo.GetImages us.ID w.st).1 = Except.ok images)
    (hurls : (m.GetUrls images (imageRepo.GetImages us.ID w.st).2).1 = Except.ok urls) :
    ((NewController (UserRepo ε) imageRepo cfg m).GetUser id w).1
      = Except.ok { ID := us.ID, Name := us.Name, Login := us.Login, Password := us.Password,
                    Description := us.Description.getD "", ImageUrls := urls } := by
  have hG : UserRepo.GetUser id w.st.1 = (Except.ok us.toModel, w.st.1) := by
    unfold UserRepo.GetUser
    rw [hrow]
  simp [Controller.GetUser, NewController, UserRepo, invoke, onDB, hG, user.toModel, himages,
    hurls]

/-- Witness of amended C10 on `aliceWorld`. -/
theorem GetUser_carries_stored_password_witness :
    ((NewController (UserRepo Assets) InMemory.imageRepo ⟨"k"⟩ InMemory.minio).GetUser 1
        InMemory.aliceWorld).1
      = Except.ok { ID := 1, Name := "Alice", Login := "alice", Password := "p1",
                    Description := (none : Option String).getD "", ImageUrls := [] } :=
  GetUser_carries_stored_password InMemory.imageRepo ⟨"k"⟩ InMemory.minio 1 InMemory.aliceWorld
    { ID := 1, Name := "Alice", Login := "alice", Password := "p1", Description := none }
    [] [] (by decide) rfl rfl

/-! ### `strconv`: parsing what `Itoa` prints -/

/-- The byte of a decimal digit is in `'0'..'9'`, has the digit as value and is
no sign. -/
theorem digitChar_spec (d : Nat) (hd : d < 10) :
    '0' ≤ strconv.digitChar d ∧ strconv.digitChar d ≤ '9' ∧
      (strconv.digitChar d).toNat - '0'.toNat = d ∧
      strconv.digitChar d ≠ '+' ∧ strconv.digitChar d ≠ '-' := by
  interval_cases d <;> decide

/-- One step of the digit loop on a digit that does not overflow. -/
theorem parseUintLoop_digit (d n : Nat) (rest : List Char) (hd : d < 10)
    (hfit : n * 10 + d < 2 ^ 64) :
    strconv.parseUintLoop (strconv.digitChar d :: rest) n
      = strconv.parseUintLoop rest (n * 10 + d) := by
  obtain ⟨h0, h9, hval, -, -⟩ := digitChar_spec d hd
  have hcut : ¬ (n ≥ strconv.maxUint64 / 10 + 1) := by
    norm_num [strconv.maxUint64]
    omega
  have hmod : (n * 10 + d) % 2 ^ 64 = n * 10 + d := Nat.mod_eq_of_lt hfit
  have hover : ¬ (n * 10 + d < n * 10 ∨ n * 10 + d > strconv.maxUint64) := by
    norm_num [strconv.maxUint64]
    omega
  rw [strconv.parseUintLoop]
  simp only [h0, h9, and_self, if_true, hval, hcut, if_false, hmod, hover]

/-- The digit loop reads back the digits `formatBits` wrote. -/
theorem parseUintLoop_formatBits (n : Nat) :
    ∀ (fuel u : Nat) (acc : List Char), u < 10 ^ fuel →
      ∃ k : Nat, n * 10 ^ k + u < 2 ^ 64 →
        strconv.parseUintLoop (strconv.formatBits fuel u acc) n
          = strconv.parseUintLoop acc (n * 10 ^ k + u) := by
  intro fuel
  induction fuel with
  | zero =>
    intro u acc hu
    simp at hu
    subst hu
    exact ⟨0, fun _ => by simp [strconv.formatBits]⟩
  | succ fuel ih =>
    intro u acc hu
    by_cases hsmall : u < 10
    · refine ⟨1, fun hfit => ?_⟩
      simp only [strconv.formatBits, hsmall, if_true]
      rw [parseUintLoop_digit u n acc hsmall (by simpa using hfit)]
      simp
    · have hdiv : u / 10 < 10 ^ fuel := by
        rw [Nat.div_lt_iff_lt_mul (by norm_num)]
        rw [pow_succ] at hu
        exact hu
      obtain ⟨k, hk⟩ := ih (u / 10) (strconv.digitChar (u % 10) :: acc) hdiv
      refine ⟨k + 1, fun hfit => ?_⟩
      have hsplit : (n * 10 ^ k + u / 10) * 10 + u % 10 = n * 10 ^ (k + 1) + u := by
        rw [pow_succ]
        have := Nat.div_add_mod u 10
        nlinarith
      have hfit2 : (n * 10 ^ k + u / 10) * 10 + u % 10 < 2 ^ 64 := by
        rw [hsplit]
        exact hfit
      simp only [strconv.formatBits, hsmall, if_false]
      rw [hk (by omega), parseUintLoop_digit (u % 10) _ acc (Nat.mod_lt u (by norm_num)) hfit2,
        hsplit]

/-- With fuel left, `formatBits` starts with a digit. -/
theorem formatBits_head :
    ∀ (fuel u : Nat) (acc : List Char),
      ∃ (d : Nat) (rest : List Char), d < 10 ∧
        strconv.formatBits (fuel + 1) u acc = strconv.digitChar d :: rest := by
  intro fuel
  induction fuel with
  | zero =>
    intro u acc
    by_cases hsmall : u < 10
    · exact ⟨u, acc, hsmall, by simp [strconv.formatBits, hsmall]⟩
    · exact ⟨u % 10, acc, Nat.mod_lt u (by norm_num), by simp [strconv.formatBits, hsmall]⟩
  | succ fuel ih =>
    intro u acc
    by_cases hsmall : u < 10
    · exact ⟨u, acc, hsmall, by simp [strconv.formatBits, hsmall]⟩
    · obtain ⟨d, rest, hd, hrest⟩ := ih (u / 10) (strconv.digitChar (u % 10) :: acc)
      refine ⟨d, rest, hd, ?_⟩
      rw [← hrest]
      conv_lhs => rw [strconv.formatBits]
      simp only [hsmall, if_false]

/-- `ParseInt` reads back what `Itoa` prints for an id in `0 .. 2^63 - 1`. -/
theorem ParseInt_Itoa (id : Int) (hnonneg : 0 ≤ id) (hmax : id < 2 ^ 63) :
    strconv.ParseInt (strconv.Itoa id) = Except.ok id := by
  obtain ⟨u, rfl⟩ := Int.eq_ofNat_of_zero_le hnonneg
  have hu : u < 2 ^ 63 := by exact_mod_cast hmax
  obtain ⟨d, rest, hd, hhead⟩ := formatBits_head 64 u []
  obtain ⟨-, -, -, hplus, hminus⟩ := digitChar_spec d hd
  obtain ⟨k, hk⟩ := parseUintLoop_formatBits 0 65 u [] (by
    calc u < 2 ^ 63 := hu
      _ < 10 ^ 65 := by norm_num)
  have hloop : strconv.parseUintLoop (strconv.digitChar d :: rest) 0 = Except.ok u := by
    rw [← hhead, hk (by simp; omega)]
    simp [strconv.parseUintLoop]
  have hItoa : (strconv.Itoa (u : Int)).data = strconv.digitChar d :: rest := by
    have hneg : ¬ ((u : Int) < 0) := by omega
    simp only [strconv.Itoa, hneg, if_false, Int.natAbs_ofNat]
    exact hhead
  unfold strconv.ParseInt
  rw [hItoa]
  simp only [hplus, hminus, or_self, if_false, strconv.ParseUint, hloop, decide_False]
  have h1 : ¬ (u ≥ 2 ^ 63) := by omega
  simp only [h1, and_false, false_and, if_false, Bool.false_eq_true]

/-- The digit loop fails on a text holding a byte that is not a digit. -/
theorem parseUintLoop_non_digit :
    ∀ (cs : List Char) (n : Nat), cs.all (fun x => '0' ≤ x ∧ x ≤ '9') = false →
      ∃ k : strconv.NumErrKind, strconv.parseUintLoop cs n = Except.error k := by
  intro cs
  induction cs with
  | nil =>
    intro n h
    simp at h
  | cons c rest ih =>
    intro n h
    by_cases hc : '0' ≤ c ∧ c ≤ '9'
    · have hrest : rest.all (fun x => '0' ≤ x ∧ x ≤ '9') = false := by
        simpa [List.all_cons, hc] using h
      rw [strconv.parseUintLoop]
      simp only [hc, and_self, if_true]
      split
      · exact ⟨_, rfl⟩
      · split
        · exact ⟨_, rfl⟩
        · exact ih _ hrest
    · rw [strconv.parseUintLoop]
      simp only [hc, if_false]
      exact ⟨_, rfl⟩

/-- `ParseUint` fails on the empty text and on a text holding a non-digit. -/
theorem ParseUint_non_digit (cs : List Char)
    (h : cs = [] ∨ cs.all (fun x => '0' ≤ x ∧ x ≤ '9') = false) :
    ∃ k : strconv.NumErrKind, strconv.ParseUint cs = Except.error k := by
  cases cs with
  | nil => exact ⟨_, rfl⟩
  | cons c rest =>
    rcases h with h | h
    · exact absurd h (List.cons_ne_nil _ _)
    · exact parseUintLoop_non_digit (c :: rest) 0 h

/-- `ParseInt` rejects every text that is not an optionally signed, non-empty run
of decimal digits. -/
theorem ParseInt_rejects_non_decimal (s : String) (h : isSignedDecimal s = false) :
    ∃ e : Error, strconv.ParseInt s = Except.error e := by
  unfold isSignedDecimal at h
  unfold strconv.ParseInt
  cases hdata : s.data with
  | nil => exact ⟨_, rfl⟩
  | cons c rest =>
    rw [hdata] at h
    simp only at h ⊢
    have hbody : ∃ k : strconv.NumErrKind,
        strconv.ParseUint (if c = '+' ∨ c = '-' then rest else c :: rest)
          = Except.error k := by
      by_cases hsign : c = '+' ∨ c = '-'
      · simp only [hsign, if_true] at h ⊢
        apply ParseUint_non_digit
        cases rest with
        | nil => exact Or.inl rfl
        | cons r rs =>
          right
          simpa using h
      · simp only [hsign, if_false] at h ⊢
        exact ParseUint_non_digit _ (Or.inr h)
    obtain ⟨k, hk⟩ := hbody
    rw [hk]
    cases k <;> exact ⟨_, rfl⟩

/-! ### The gate -/

/-- `jwt.Parse` accepts a token signed with the MAC of its own claims under the
key, by an HMAC method, inside its validity window. -/
theorem Parse_accepts (hmac : jwt.HMAC) (keyword : String) (now : Time) (alg : String)
    (claims : jwt.MapClaims) (halg : alg ∈ ["HS256", "HS384", "HS512"])
    (hexp : claims.exp.any (fun exp => ¬ (now < exp)) = false)
    (hnbf : claims.nbf.any (fun nbf => now < nbf) = false) :
    jwt.Parse hmac keyword now (jwt.TokenString.compact alg claims (hmac alg keyword claims))
      = Except.ok claims := by
  have hmem : ¬ (alg ∉ ["HS256", "HS384", "HS512"]) := not_not_intro halg
  simp only [jwt.Parse, hmem, if_false, ne_eq, not_true_eq_false, hexp, hnbf,
    Bool.false_eq_true]

/-- The gate on a token that verifies, whose issuer reads as `idStr`, which
parses as `id`: nothing is written and the request goes downstream with `id`
in its context. -/
theorem Auth_verified (hmac : jwt.HMAC) (ParseResponse : String → Bool → String × Option Error)
    (keyword : String) (now : Time) (r : Request) (claims : jwt.MapClaims) (idStr : String)
    (id : Int)
    (hP : jwt.Parse hmac keyword now r.Authorization = Except.ok claims)
    (hI : claims.GetIssuer = Except.ok idStr)
    (hId : strconv.ParseInt idStr = Except.ok id) :
    Auth hmac ParseResponse keyword now r
      = { status := none, body := none, logged := []
          next := some { Authorization := r.Authorization
                         ctx := { idCtxKey := GoAny.int id } } } := by
  simp only [Auth, hP, hI, hId, Request.WithContext, Context.WithValue]

/-- `writeErr` always answers 401 and never calls the downstream handler. -/
theorem writeErr_unauthorized (ParseResponse : String → Bool → String × Option Error)
    (err : Error) :
    (writeErr ParseResponse err).status = some StatusUnauthorized ∧
      (writeErr ParseResponse err).next = none := by
  unfold writeErr
  rcases ParseResponse err true with ⟨b, _ | err2⟩ <;> exact ⟨rfl, rfl⟩

/-- The gate accepts a token carrying the HS256 MAC of its own claims under the
gate's key, inside its validity window, whose issuer parses as `id`. -/
theorem Auth_accepts_signed (hmac : jwt.HMAC)
    (ParseResponse : String → Bool → String × Option Error) (keyword : String) (later : Time)
    (ctx : Context) (claims : jwt.MapClaims) (idStr : String) (id : Int) (exp nbf : Time)
    (hiss : claims.iss = some (jwt.ClaimValue.str idStr))
    (hexp : claims.exp = some exp) (hnbf : claims.nbf = some nbf)
    (hbefore : later < exp) (hafter : ¬ (later < nbf))
    (hId : strconv.ParseInt idStr = Except.ok id) :
    Auth hmac ParseResponse keyword later
        { Authorization := jwt.TokenString.compact "HS256" claims (hmac "HS256" keyword claims)
          ctx := ctx }
      = { status := none, body := none, logged := []
          next := some
            { Authorization :=
                jwt.TokenString.compact "HS256" claims (hmac "HS256" keyword claims)
              ctx := { idCtxKey := GoAny.int id } } } := by
  refine Auth_verified hmac ParseResponse keyword later _ claims idStr id ?_ ?_ hId
  · refine Parse_accepts hmac keyword later "HS256" claims (List.mem_cons_self _ _) ?_ ?_
    · simp only [hexp, Option.any_some, hbefore, not_true_eq_false, decide_False]
    · simp only [hnbf, Option.any_some, hafter, decide_False]
  · simp only [jwt.MapClaims.GetIssuer, hiss]

/-- `Itoa` never prints the empty string. -/
theorem Itoa_ne_empty (i : Int) : strconv.Itoa i ≠ "" := by
  intro h
  have hdata : (strconv.Itoa i).data = [] := by rw [h]
  unfold strconv.Itoa at hdata
  by_cases hneg : i < 0
  · simp [hneg] at hdata
  · obtain ⟨d, rest, -, hhead⟩ := formatBits_head 64 i.natAbs []
    simp only [hneg, if_false] at hdata
    rw [hhead] at hdata
    exact List.cons_ne_nil _ _ hdata

/-- C2: token round-trip. When the store matches `(login, password)` to an
identity with a positive id (in the range of a 64-bit `int`),
`Controller.Authorize` at time `now` returns a token, and the gate, given that
token with the same secret at any time `later` from `now` up to the expiry
(in particular at `later = now`), writes nothing itself and hands the request
downstream with exactly that id in the context. -/
theorem token_round_trip {σ : Type} (hmac : jwt.HMAC)
    (ParseResponse : String → Bool → String × Option Error) (c : Controller σ)
    (now later : Time) (login password : String) (w : World σ) (user : User) (ctx : Context)
    (hauth : (c.repo.CheckAuth login password w.st).1 = Except.ok user)
    (hpos : 0 < user.ID) (hmax : user.ID < 2 ^ 63)
    (hnow : now ≤ later) (hlater : later < jwt.NewNumericDate (now + Hour * 24)) :
    ∃ tok : jwt.TokenString,
      (c.Authorize hmac now login password w).1 = Except.ok tok ∧
      Auth hmac ParseResponse c.cfg.JWTKeyword later { Authorization := tok, ctx := ctx }
        = { status := none, body := none, logged := []
            next := some { Authorization := tok, ctx := { idCtxKey := GoAny.int user.ID } } } := by
  have hinv : invoke (Call.CheckAuth login password) (c.repo.CheckAuth login password) w
      = (Except.ok user, { st := (c.repo.CheckAuth login password w.st).2
                           trace := w.trace ++ [Call.CheckAuth login password] }) := by
    simp [invoke, hauth]
  have hne := Itoa_ne_empty user.ID
  have hparse := ParseInt_Itoa user.ID (le_of_lt hpos) hmax
  have hnbf : ¬ (later < jwt.NewNumericDate now) := by
    have hle : jwt.NewNumericDate now ≤ now := Nat.div_mul_le_self now Second
    exact Nat.not_lt.mpr (le_trans hle hnow)
  refine ⟨jwt.TokenString.compact "HS256"
      (jwt.RegisteredClaims.toMapClaims
        { Issuer := strconv.Itoa user.ID
          Subject := "authorized"
          Audience := ["1"]
          ExpiresAt := some (jwt.NewNumericDate (now + Hour * 24))
          NotBefore := some (jwt.NewNumericDate now)
          IssuedAt := some (jwt.NewNumericDate now)
          ID := strconv.Itoa user.ID })
      (hmac "HS256" c.cfg.JWTKeyword
        (jwt.RegisteredClaims.toMapClaims
          { Issuer := strconv.Itoa user.ID
            Subject := "authorized"
            Audience := ["1"]
            ExpiresAt := some (jwt.NewNumericDate (now + Hour * 24))
            NotBefore := some (jwt.NewNumericDate now)
            IssuedAt := some (jwt.NewNumericDate now)
            ID := strconv.Itoa user.ID })), ?_, ?_⟩
  · simp only [Controller.Authorize, hinv, jwt.SignedString]
  · have hiss : jwt.omitempty (strconv.Itoa user.ID)
        = some (jwt.ClaimValue.str (strconv.Itoa user.ID)) := by
      simp only [jwt.omitempty, hne, if_false]
    exact Auth_accepts_signed hmac ParseResponse c.cfg.JWTKeyword later ctx _
      (strconv.Itoa user.ID) user.ID _ _
      (by simp only [jwt.RegisteredClaims.toMapClaims, hiss]) rfl rfl hlater hnbf hparse

/-- Witness of C2: `alice` (id 1) authenticates at 5.000000007 s and presents the
token at once. -/
theorem token_round_trip_witness :
    ∃ tok : jwt.TokenString,
      ((InMemory.controller ⟨"k"⟩).Authorize InMemory.hmac (5 * Second + 7) "alice" "p1"
          InMemory.aliceWorld).1 = Except.ok tok ∧
      Auth InMemory.hmac InMemory.ParseResponse (InMemory.controller ⟨"k"⟩).cfg.JWTKeyword
          (5 * Second + 7) { Authorization := tok, ctx := Context.Background }
        = { status := none, body := none, logged := []
            next := some { Authorization := tok
                           ctx := { idCtxKey := GoAny.int 1 } } } :=
  token_round_trip InMemory.hmac InMemory.ParseResponse (InMemory.controller ⟨"k"⟩)
    (5 * Second + 7) (5 * Second + 7) "alice" "p1" InMemory.aliceWorld
    { ID := 1, Name := "Alice", Login := "alice", Password := "p1", Description := "",
      ImageUrls := [] }
    Context.Background rfl (by decide) (by decide) (le_refl _) (by decide)

/-- C3: gating by the Auth gate. If the token verifies, its issuer is read and
parses as `id`, the downstream handler is invoked on the request whose context
holds exactly `id` under the id key; conversely the handler is invoked only in
that case; and whenever it is not invoked the status written is 401. -/
theorem Auth_gates_on_verification (hmac : jwt.HMAC)
    (ParseResponse : String → Bool → String × Option Error) (keyword : String) (now : Time)
    (r : Request) :
    (∀ (claims : jwt.MapClaims) (idStr : String) (id : Int),
        jwt.Parse hmac keyword now r.Authorization = Except.ok claims →
        claims.GetIssuer = Except.ok idStr →
        strconv.ParseInt idStr = Except.ok id →
        (Auth hmac ParseResponse keyword now r).next
          = some { Authorization := r.Authorization, ctx := { idCtxKey := GoAny.int id } }) ∧
    (∀ served : Request, (Auth hmac ParseResponse keyword now r).next = some served →
        ∃ (claims : jwt.MapClaims) (idStr : String) (id : Int),
          jwt.Parse hmac keyword now r.Authorization = Except.ok claims ∧
          claims.GetIssuer = Except.ok idStr ∧
          strconv.ParseInt idStr = Except.ok id ∧
          served.ctx.Value = GoAny.int id ∧
          served = { Authorization := r.Authorization, ctx := { idCtxKey := GoAny.int id } }) ∧
    ((Auth hmac ParseResponse keyword now r).next = none →
        (Auth hmac ParseResponse keyword now r).status = some StatusUnauthorized) := by
  refine ⟨?_, ?_, ?_⟩
  · intro claims idStr id hP hI hId
    rw [Auth_verified hmac ParseResponse keyword now r claims idStr id hP hI hId]
  · intro served hserved
    cases hP : jwt.Parse hmac keyword now r.Authorization with
    | error e =>
      simp only [Auth, hP] at hserved
      rcases hR : ParseResponse "unauthorized" true with ⟨b, _ | err⟩ <;>
        simp [hR] at hserved
    | ok claims =>
      cases hI : claims.GetIssuer with
      | error e =>
        simp only [Auth, hP, hI, (writeErr_unauthorized ParseResponse e).2] at hserved
        exact absurd hserved (by simp)
      | ok idStr =>
        cases hId : strconv.ParseInt idStr with
        | error e =>
          simp only [Auth, hP, hI, hId, (writeErr_unauthorized ParseResponse e).2] at hserved
          exact absurd hserved (by simp)
        | ok id =>
          rw [Auth_verified hmac ParseResponse keyword now r claims idStr id hP hI hId]
            at hserved
          simp only [Option.some.injEq] at hserved
          refine ⟨claims, idStr, id, rfl, hI, hId, ?_, hserved.symm⟩
          rw [← hserved]
          rfl
  · intro hnone
    cases hP : jwt.Parse hmac keyword now r.Authorization with
    | error e =>
      simp only [Auth, hP]
      rcases ParseResponse "unauthorized" true with ⟨b, _ | err⟩ <;> rfl
    | ok claims =>
      cases hI : claims.GetIssuer with
      | error e =>
        simp only [Auth, hP, hI, (writeErr_unauthorized ParseResponse e).1]
      | ok idStr =>
        cases hId : strconv.ParseInt idStr with
        | error e =>
          simp only [Auth, hP, hI, hId, (writeErr_unauthorized ParseResponse e).1]
        | ok id =>
          rw [Auth_verified hmac ParseResponse keyword now r claims idStr id hP hI hId]
            at hnone
          exact absurd hnone (by simp)

/-- C4, as stated, fails: correctly signed, currently valid tokens with the
issuers `"0"` and `"-3"` pass the gate, which writes no status and hands the
request downstream with the ids 0 and -3 in the context. -/
theorem Auth_accepts_nonpositive_issuer :
    Auth InMemory.hmac InMemory.ParseResponse "k" (100 * Second)
        { Authorization := InMemory.tokenWithIssuer (some (jwt.ClaimValue.str "0"))
          ctx := Context.Background }
      = { status := none, body := none, logged := []
          next := some
            { Authorization := InMemory.tokenWithIssuer (some (jwt.ClaimValue.str "0"))
              ctx := { idCtxKey := GoAny.int 0 } } } ∧
    Auth InMemory.hmac InMemory.ParseResponse "k" (100 * Second)
        { Authorization := InMemory.tokenWithIssuer (some (jwt.ClaimValue.str "-3"))
          ctx := Context.Background }
      = { status := none, body := none, logged := []
          next := some
            { Authorization := InMemory.tokenWithIssuer (some (jwt.ClaimValue.str "-3"))
              ctx := { idCtxKey := GoAny.int (-3) } } } :=
  ⟨Auth_verified _ _ _ _ _ _ "0" 0 rfl rfl rfl, Auth_verified _ _ _ _ _ _ "-3" (-3) rfl rfl rfl⟩

/-- C4, amended: a token whose signature and validity window are valid but
whose issuer claim is absent, is not a string, is a string that is not an
optionally signed non-empty run of decimal digits, or is a string that
`strconv.ParseInt(_, 10, 64)` rejects for another reason (a value outside the
64-bit range), is answered with 401 and nothing is handed downstream. -/
theorem Auth_rejects_unparsable_issuer (hmac : jwt.HMAC)
    (ParseResponse : String → Bool → String × Option Error) (keyword : String) (now : Time)
    (r : Request) (claims : jwt.MapClaims)
    (hP : jwt.Parse hmac keyword now r.Authorization = Except.ok claims)
    (hbad : claims.iss = none ∨ claims.iss = some jwt.ClaimValue.other ∨
      ∃ s : String, claims.iss = some (jwt.ClaimValue.str s) ∧
        (isSignedDecimal s = false ∨ ∃ e : Error, strconv.ParseInt s = Except.error e)) :
    (Auth hmac ParseResponse keyword now r).status = some StatusUnauthorized ∧
      (Auth hmac ParseResponse keyword now r).next = none := by
  rcases hbad with hnone | hother | ⟨s, hstr, hshape⟩
  · have hI : claims.GetIssuer = Except.ok "" := by
      simp only [jwt.MapClaims.GetIssuer, hnone]
    have hId : strconv.ParseInt "" = Except.error (strconv.syntaxError "") := rfl
    simp only [Auth, hP, hI, hId]
    exact writeErr_unauthorized ParseResponse _
  · have hI : claims.GetIssuer = Except.error "invalid type for claim: iss is invalid" := by
      simp only [jwt.MapClaims.GetIssuer, hother]
    simp only [Auth, hP, hI]
    exact writeErr_unauthorized ParseResponse _
  · have hI : claims.GetIssuer = Except.ok s := by
      simp only [jwt.MapClaims.GetIssuer, hstr]
    obtain ⟨e, hparse⟩ : ∃ e : Error, strconv.ParseInt s = Except.error e := by
      rcases hshape with hshape | hrejected
      · exact ParseInt_rejects_non_decimal s hshape
      · exact hrejected
    simp only [Auth, hP, hI, hparse]
    exact writeErr_unauthorized ParseResponse _

/-- Witness of amended C4: the issuer `"abc"`. -/
theorem Auth_rejects_unparsable_issuer_witness :
    (Auth InMemory.hmac InMemory.ParseResponse "k" (100 * Second)
        { Authorization := InMemory.tokenWithIssuer (some (jwt.ClaimValue.str "abc"))
          ctx := Context.Background }).status = some StatusUnauthorized ∧
    (Auth InMemory.hmac InMemory.ParseResponse "k" (100 * Second)
        { Authorization := InMemory.tokenWithIssuer (some (jwt.ClaimValue.str "abc"))
          ctx := Context.Background }).next = none :=
  Auth_rejects_unparsable_issuer InMemory.hmac InMemory.ParseResponse "k" (100 * Second)
    { Authorization := InMemory.tokenWithIssuer (some (jwt.ClaimValue.str "abc"))
      ctx := Context.Background }
    { iss := some (jwt.ClaimValue.str "abc"), sub := none, aud := [], exp := some (200 * Second),
      nbf := none, iat := none, jti := none }
    rfl (Or.inr (Or.inr ⟨"abc", rfl, Or.inl (by decide)⟩))

/-! ### The chat front end -/

/-- A text without a space splits into the single piece that is the text. -/
theorem Split_no_space (cs : List Char) (h : ' ' ∉ cs) : strings.Split cs = [cs] := by
  induction cs with
  | nil => rfl
  | cons c rest ih =>
    have hc : c ≠ ' ' := fun hc => h (by simp [hc])
    have hrest : ' ' ∉ rest := fun hr => h (List.mem_cons_of_mem _ hr)
    simp [strings.Split, ih hrest, hc]

/-- C8 fails on the code: for every message whose text is not the start command
and contains no space (one token, or the empty text), `Bot.ProcessMessage` does
not return: indexing the second piece of the split panics before the
controller is called and before any reply is sent. -/
theorem ProcessMessage_panics_on_single_token {σ : Type} (b : Bot σ) (message : Message)
    (w : World σ) (hstart : message.Text ≠ telegram.startCMD)
    (hsingle : ' ' ∉ message.Text.data) :
    b.ProcessMessage message w
      = Outcome.panic "runtime error: index out of range [1] with length 1" := by
  simp [Bot.ProcessMessage, hstart, Split_no_space _ hsingle]

/-- Witness of the C8 failure: the text `alice`, sent to the bot of `main.go` on
the in-memory stores. -/
theorem ProcessMessage_panics_on_single_token_witness :
    (Bot.mk (InMemory.controller ⟨"k"⟩).asBotController).ProcessMessage
        { Text := "alice", ChatID := 555, FromID := 555, MessageID := 1 } InMemory.aliceWorld
      = Outcome.panic "runtime error: index out of range [1] with length 1" :=
  ProcessMessage_panics_on_single_token (Bot.mk (InMemory.controller ⟨"k"⟩).asBotController)
    { Text := "alice", ChatID := 555, FromID := 555, MessageID := 1 } InMemory.aliceWorld
    (by decide) (by decide)

/-- A two-token message links the chat: `ProcessMessage` returns and the binding
is written. -/
theorem ProcessMessage_links_example :
    (Bot.mk (InMemory.controller ⟨"k"⟩).asBotController).ProcessMessage
        { Text := "alice p1", ChatID := 555, FromID := 555, MessageID := 1 } InMemory.aliceWorld
      = Outcome.returned
          (NewMessage 555 "Вы зарегистрированы",
            { st := ({ InMemory.aliceDB with
                         tg_auth := [{ ID := 1, UserID := 1, TelegramID := 555 }]
                         tg_auth_id_seq := 2 },
                     { images := [], bucket := [] })
              trace := [Call.CheckAuth "alice" "p1", Call.CheckTgAuth 555,
                Call.AuthorizeTG 1 555] }) := by
  rfl

end ImageLoader
